import Mathlib

/-!
Shallow embedding of the linear standard-form compiler in
pyomo/repn/plugins/standard_form.py.

Numbers are modelled as rationals: every numeric operation the compiler
performs (addition, subtraction, negation, order comparison, equality)
is exact on the IEEE doubles the source manipulates whenever it is exact
on the corresponding rationals, and the control flow depends only on
comparisons, so the rational model is faithful to the branch structure.

Sparse matrices are modelled column-wise: a CSC matrix is a list of
columns, each column the list of (row index, value) pairs of its stored
entries (the data/indices slice between two consecutive indptr values).

The stages modelled here follow the source:
  - processObj / processObjs : the objective loop (lines 360-378);
  - the slack_form/mixed_form conflict check (lines 383-386);
  - processCon / processCons : the constraint loop (lines 393-490),
    covering the mixed, slack and default (canonical <=) conventions;
  - write : the pipeline order of the stages above;
  - activeVarMask / maskList / pruneCols : the empty-column pruning pass
    (lines 517-535);
  - nnStep / nnGo / cscToNonnegativeVars : the non-negativity variable
    splitting transform (_csc_to_nonnegative_vars, lines 549-616).
The scipy CSR-to-CSC conversion between the row loop and the column
passes is a pure data-layout change and is left implicit: the column
passes take the column-wise form directly.
-/

namespace StandardForm

/-- A sparse matrix column: the stored (row index, value) pairs. -/
abbrev Col := List (Nat × ℚ)

/-- A Pyomo variable as the compiler sees it: a name, a domain
(uninterpreted here, carried because created variables inherit it), and
optional lower/upper bounds (None meaning unbounded). -/
structure PVar where
  name : String
  domain : String
  lb : Option ℚ
  ub : Option ℚ
deriving DecidableEq, Repr

/-- The linear form produced by LinearRepnVisitor.walk_expression:
a constant offset, an ordered coefficient list keyed by column index
(the source keys by variable id and maps through var_order; we key by
the resulting column index directly), and the nonlinear-presence flag
(repn.nonlinear is not None). -/
structure LinearRepn where
  constant : ℚ
  linear : Col
  nonlinear : Bool
deriving DecidableEq, Repr

/-- A constraint: name, optional bounds (con.lb / con.ub), and its
walked linear form. -/
structure Con where
  name : String
  lb : Option ℚ
  ub : Option ℚ
  repn : LinearRepn
deriving DecidableEq, Repr

/-- An objective: name, sense (pyomo encodes minimize = 1,
maximize = -1), and its walked linear form. -/
structure Obj where
  name : String
  sense : Int
  repn : LinearRepn
deriving DecidableEq, Repr

/-- The terminal errors the compiler can raise in the modelled region. -/
inductive CompileError where
  | nonlinearObjective (name : String)
  | nonlinearConstraint (name : String)
  | infeasibleConstraint (name : String)
  | conflictingConfig
deriving DecidableEq, Repr

/-- One output row: the multiplier recorded in RowEntry, the
coefficient entries, and the right-hand side. -/
structure Row where
  mult : Int
  coeffs : Col
  rhs : ℚ
deriving DecidableEq, Repr

/-- The three output conventions, selected by the mixed_form /
slack_form configuration flags (default when neither is set). -/
inductive Conv where
  | mixed
  | slack
  | std
deriving DecidableEq, Repr

/-- Elementwise negation of a column's values (numpy unary minus on the
data slice; indices unchanged). -/
def negCol (col : Col) : Col := col.map (fun p => (p.1, -p.2))

/-- Python (lb is None or lb <= offset). -/
def lbSat (lb : Option ℚ) (k : ℚ) : Bool :=
  match lb with
  | none => true
  | some l => decide (l ≤ k)

/-- Python (ub is None or ub >= offset). -/
def ubSat (ub : Option ℚ) (k : ℚ) : Bool :=
  match ub with
  | none => true
  | some u => decide (k ≤ u)

/-- The body of the constraint loop (standard_form.py lines 398-490)
for one constraint.  Arguments: the selected convention, the current
number of columns nv (len(var_order), used as the slack column index),
the current number of rows nr (len(rhs), used in the slack variable's
name), and the constraint.  Returns the emitted rows, the newly created
slack variables (appended to the column assignment), and the updated
column count. -/
def processCon (conv : Conv) (nv nr : Nat) (con : Con) :
    Except CompileError (List Row × List PVar × Nat) :=
  if con.lb = none ∧ con.ub = none then
    -- unbounded constraints cannot be output in matrix format: skipped
    .ok ([], [], nv)
  else if con.repn.nonlinear then
    .error (.nonlinearConstraint con.name)
  else
    -- pull out the constant; it moves to the bounds
    let k := con.repn.constant
    if con.repn.linear = [] then
      if lbSat con.lb k && ubSat con.ub k then .ok ([], [], nv)
      else .error (.infeasibleConstraint con.name)
    else
      match conv with
      | .mixed =>
        let d := con.repn.linear
        if con.ub = con.lb then
          -- both bounds present and equal (the both-absent case was
          -- already skipped above), so getD never supplies its default
          .ok ([⟨0, d, con.ub.getD 0 - k⟩], [], nv)
        else
          .ok ((match con.ub with
                | some u => [⟨1, d, u - k⟩]
                | none => [])
               ++ (match con.lb with
                   | some l => [⟨-1, d, l - k⟩]
                   | none => []), [], nv)
      | .slack =>
        let d := con.repn.linear
        if con.lb = con.ub then
          -- both bounds present and equal; no slack variable
          .ok ([⟨1, d, con.ub.getD 0 - k⟩], [], nv)
        else
          match con.lb, con.ub with
          | none, some u =>
            -- v = Var(bounds=(None, None)); v.lb = 0
            let v : PVar := ⟨"_slack_" ++ toString nr, "Reals", some 0, none⟩
            .ok ([⟨1, d ++ [((nv : Nat), (1 : ℚ))], u - k⟩], [v], nv + 1)
          | some l, ub? =>
            -- v.ub = 0; and v.lb = lb - ub when ub is present
            let v : PVar :=
              ⟨"_slack_" ++ toString nr, "Reals",
               (match ub? with | some u => some (l - u) | none => none),
               some 0⟩
            .ok ([⟨1, d ++ [((nv : Nat), (1 : ℚ))], l - k⟩], [v], nv + 1)
          | none, none =>
            -- unreachable: the both-absent case was skipped above
            .ok ([], [], nv)
      | .std =>
        let d := con.repn.linear
        .ok ((match con.ub with
              | some u => [⟨1, d, u - k⟩]
              | none => [])
             ++ (match con.lb with
                 | some l => [⟨-1, negCol d, k - l⟩]
                 | none => []), [], nv)

/-- The constraint loop folded over the ordered active constraints,
threading the column count (slack creation grows it) and the row count
(used for slack names). -/
def processCons (conv : Conv) : List Con → Nat → Nat →
    Except CompileError (List Row × List PVar × Nat)
  | [], nv, _ => .ok ([], [], nv)
  | c :: rest, nv, nr =>
    match processCon conv nv nr c with
    | .error e => .error e
    | .ok (rows₁, vars₁, nv₁) =>
      match processCons conv rest nv₁ (nr + rows₁.length) with
      | .error e => .error e
      | .ok (rows₂, vars₂, nv₂) => .ok (rows₁ ++ rows₂, vars₁ ++ vars₂, nv₂)

/-- The pure part of the objective loop body: the coefficient row and
the constant offset, both negated when a uniform sense is configured
(set_sense is not None) and disagrees with the objective's sense. -/
def objRow (ss : Option Int) (o : Obj) : Col × ℚ :=
  match ss with
  | some s =>
    if s ≠ o.sense then (negCol o.repn.linear, -o.repn.constant)
    else (o.repn.linear, o.repn.constant)
  | none => (o.repn.linear, o.repn.constant)

/-- One iteration of the objective loop (standard_form.py lines
360-378): nonlinear objectives abort compilation, otherwise exactly one
coefficient row and one scalar offset are emitted. -/
def processObj (ss : Option Int) (o : Obj) : Except CompileError (Col × ℚ) :=
  if o.repn.nonlinear then .error (.nonlinearObjective o.name)
  else .ok (objRow ss o)

/-- The objective loop over the ordered active objectives. -/
def processObjs (ss : Option Int) : List Obj →
    Except CompileError (List (Col × ℚ))
  | [] => .ok []
  | o :: rest =>
    match processObj ss o with
    | .error e => .error e
    | .ok r =>
      match processObjs ss rest with
      | .error e => .error e
      | .ok rs => .ok (r :: rs)

/-- The configuration surface relevant to the modelled stages. -/
structure Config where
  nonnegative_vars : Bool
  slack_form : Bool
  mixed_form : Bool
  set_sense : Option Int
deriving DecidableEq, Repr

/-- A model as the compiler consumes it: ordered active objectives and
constraints, and the number of columns assigned before any slack is
created (len(var_order) after initialize_var_map_from_column_order). -/
structure Model where
  objectives : List Obj
  constraints : List Con
  nvars : Nat
deriving DecidableEq, Repr

/-- The row-level compiled output of the modelled region of write. -/
structure WriteResult where
  objRows : List (Col × ℚ)
  rows : List Row
  slacks : List PVar
  ncols : Nat
deriving DecidableEq, Repr

/-- Which convention the constraint loop uses: the source tests
mixed_form first, then slack_form, else the default. -/
def convOf (cfg : Config) : Conv :=
  if cfg.mixed_form then .mixed
  else if cfg.slack_form then .slack
  else .std

/-- The pipeline order of _LinearStandardFormCompiler_impl.write in the
modelled region: the objective loop runs first (lines 360-378), then
the slack_form/mixed_form conflict check (lines 383-386), then the
constraint loop (lines 393-490). -/
def write (cfg : Config) (m : Model) : Except CompileError WriteResult :=
  match processObjs cfg.set_sense m.objectives with
  | .error e => .error e
  | .ok objRows =>
    if cfg.slack_form && cfg.mixed_form then .error .conflictingConfig
    else
      match processCons (convOf cfg) m.constraints m.nvars 0 with
      | .error e => .error e
      | .ok (rows, slacks, nv) => .ok ⟨objRows, rows, slacks, nv⟩

/-- Whether a column is kept by the pruning pass: the source computes
active_var_mask = (A_ip[1:] > A_ip[:-1]) | (c_ip[1:] > c_ip[:-1]), i.e.
a column survives iff its A column or its c column has a stored entry. -/
def colActive (aCol cCol : Col) : Bool := !aCol.isEmpty || !cCol.isEmpty

/-- The active_var_mask over the parallel A and c column lists. -/
def activeVarMask (aCols cCols : List Col) : List Bool :=
  List.zipWith colActive aCols cCols

/-- Boolean-mask selection, the semantics of numpy fancy indexing by a
mask (and of the list comprehension over zip(active_var_mask, columns)). -/
def maskList {α : Type} : List Bool → List α → List α
  | true :: m, x :: xs => x :: maskList m xs
  | false :: m, _ :: xs => maskList m xs
  | _, _ => []

/-- The empty-column pruning pass (standard_form.py lines 517-535):
compute the mask from the two matrices and select the surviving columns
of c, of A, and of the column list.  (The source skips the rebuild when
every column is active; the result is the same.) -/
def pruneCols (cCols aCols : List Col) (columns : List PVar) :
    List Col × List Col × List PVar :=
  let mask := activeVarMask aCols cCols
  (maskList mask cCols, maskList mask aCols, maskList mask columns)

/-- Pairing of three parallel lists, used to state column-wise facts. -/
def zip3 {α β γ : Type} (a : List α) (b : List β) (c : List γ) :
    List (α × β × γ) :=
  a.zip (b.zip c)

/-- The replacement expression recorded for an eliminated variable:
either pos - neg (a split variable) or -neg (a wholly non-positive
variable). -/
inductive VExpr where
  | sub (pos neg : PVar)
  | negv (x : PVar)
deriving DecidableEq, Repr

/-- Python (lb is None or lb < 0): the column must be rewritten. -/
def splitLb (lb : Option ℚ) : Bool :=
  match lb with
  | none => true
  | some l => decide (l < 0)

/-- Python (ub is None or ub > 0): the column's range crosses or
reaches above zero, so it splits into two variables. -/
def splitUb (ub : Option ℚ) : Bool :=
  match ub with
  | none => true
  | some u => decide (0 < u)

/-- The loop body of _csc_to_nonnegative_vars (standard_form.py lines
558-605) for the column at original index i with objective entries
cCol, constraint entries aCol, and variable v.  Returns the replacement
(c column, A column, variable) triples in order, and the eliminated
variable substitutions appended for this column. -/
def nnStep (i : Nat) (cCol aCol : Col) (v : PVar) :
    List (Col × Col × PVar) × List (PVar × VExpr) :=
  if splitLb v.lb then
    -- Var(name=_neg_i, domain=v.domain, bounds=(0, None if lb is None else -lb))
    let negV : PVar :=
      ⟨"_neg_" ++ toString i, v.domain, some 0,
       Option.map (fun l => -l) v.lb⟩
    if splitUb v.ub then
      -- crosses 0; split into 2 vars
      let posV : PVar := ⟨"_pos_" ++ toString i, v.domain, some 0, v.ub⟩
      ([(negCol cCol, negCol aCol, negV), (cCol, aCol, posV)],
       [(v, VExpr.sub posV negV)])
    else
      match v.ub with
      | some u =>
        -- new_columns[-1].lb = -ub
        let negV' : PVar := { negV with lb := some (-u) }
        ([(negCol cCol, negCol aCol, negV')], [(v, VExpr.negv negV')])
      | none =>
        -- unreachable: ub = none satisfies splitUb
        ([(negCol cCol, negCol aCol, negV)], [(v, VExpr.negv negV)])
  else
    -- lb >= 0: the column passes through unchanged
    ([(cCol, aCol, v)], [])

/-- The full loop of _csc_to_nonnegative_vars, threading the original
column index used in the created variables' names. -/
def nnGo : Nat → List (Col × Col × PVar) →
    List (Col × Col × PVar) × List (PVar × VExpr)
  | _, [] => ([], [])
  | i, e :: rest =>
    let (outs, elims) := nnStep i e.1 e.2.1 e.2.2
    let (outs₂, elims₂) := nnGo (i + 1) rest
    (outs ++ outs₂, elims ++ elims₂)

/-- The non-negativity transform on the column-wise matrices: each
original column (c entries, A entries, variable) is rewritten by nnStep
in order, starting from index 0. -/
def cscToNonnegativeVars (cols : List (Col × Col × PVar)) :
    List (Col × Col × PVar) × List (PVar × VExpr) :=
  nnGo 0 cols

instance {e a : Type} [DecidableEq e] [DecidableEq a] : DecidableEq (Except e a) := fun x y =>
  match x, y with
  | .ok u, .ok v =>
    if h : u = v then .isTrue (by rw [h]) else .isFalse (by intro hc; cases hc; exact h rfl)
  | .error u, .error v =>
    if h : u = v then .isTrue (by rw [h]) else .isFalse (by intro hc; cases hc; exact h rfl)
  | .ok _, .error _ => .isFalse (by intro hc; cases hc)
  | .error _, .ok _ => .isFalse (by intro hc; cases hc)

/-- C2: under the default convention, a constraint with at least one
variable term yields exactly the row with the form's coefficients and
rhs = upper - constant (multiplier +1) when an upper bound exists,
followed by the row with negated coefficients and rhs =
constant - lower (multiplier -1) when a lower bound exists; a two-sided
constraint yields both rows, and no new variable is created. -/
theorem claim2_default_rows (con : Con) (nv nr : Nat)
    (hnl : con.repn.nonlinear = false) (hlin : con.repn.linear ≠ []) :
    processCon .std nv nr con =
      .ok ((match con.ub with
            | some u => [⟨1, con.repn.linear, u - con.repn.constant⟩]
            | none => [])
           ++ (match con.lb with
               | some l => [⟨-1, negCol con.repn.linear, con.repn.constant - l⟩]
               | none => []), [], nv) := by
  rcases con with ⟨cname, clb, cub, ⟨k, lin, nl⟩⟩
  rcases clb with _ | l <;> rcases cub with _ | u <;>
    simp_all [processCon]

/-- Witness for C2 at the spec scenario x + y <= 5 (lower bound
absent): exactly one row with coefficients 1, 1 and rhs 5. -/
theorem claim2_default_rows_witness :
    processCon .std 2 0 (⟨"c", none, some 5, ⟨0, [(0, 1), (1, 1)], false⟩⟩ : Con) =
      .ok ([⟨1, [(0, 1), (1, 1)], 5⟩], [], 2) := by
  have h := claim2_default_rows
    ⟨"c", none, some 5, ⟨0, [(0, 1), (1, 1)], false⟩⟩ 2 0 rfl (by simp)
  simpa using h

/-- C7: under the mixed-sign convention the coefficients are never
negated and only the multiplier records the direction: multiplier 0
with rhs = bound - constant when the two bounds are equal, otherwise
multiplier +1 with rhs = upper - constant for the upper-derived row and
multiplier -1 with rhs = lower - constant (not sign-flipped) for the
lower-derived row. -/
theorem claim7_mixed_rows (con : Con) (nv nr : Nat)
    (hnl : con.repn.nonlinear = false) (hlin : con.repn.linear ≠ [])
    (hb : con.lb ≠ none ∨ con.ub ≠ none) :
    processCon .mixed nv nr con =
      .ok ((match con.lb, con.ub with
            | some l, some u =>
              if u = l then [⟨0, con.repn.linear, u - con.repn.constant⟩]
              else [⟨1, con.repn.linear, u - con.repn.constant⟩,
                    ⟨-1, con.repn.linear, l - con.repn.constant⟩]
            | none, some u => [⟨1, con.repn.linear, u - con.repn.constant⟩]
            | some l, none => [⟨-1, con.repn.linear, l - con.repn.constant⟩]
            | none, none => []), [], nv) := by
  rcases con with ⟨cname, clb, cub, ⟨k, lin, nl⟩⟩
  rcases clb with _ | l <;> rcases cub with _ | u
  · simp at hb
  · simp_all [processCon]
  · simp_all [processCon]
  · by_cases h : u = l <;> simp_all [processCon]

/-- Witness for C7 at the two-sided constraint 1 <= 2 x + 1 <= 4:
two rows with unnegated coefficients, multipliers +1 and -1, and
rhs upper - constant resp. lower - constant. -/
theorem claim7_mixed_rows_witness :
    processCon .mixed 1 0 (⟨"c", some 1, some 4, ⟨1, [(0, 2)], false⟩⟩ : Con) =
      .ok ([⟨1, [(0, 2)], 3⟩, ⟨-1, [(0, 2)], 0⟩], [], 1) := by
  have h := claim7_mixed_rows
    ⟨"c", some 1, some 4, ⟨1, [(0, 2)], false⟩⟩ 1 0 rfl (by simp) (Or.inl (by simp))
  norm_num at h
  simpa using h

/-- C10: under the slack convention with distinct bounds, the slack
variable's bounds and the rhs are: bounds [0, inf) and rhs =
upper - constant when only the upper bound is present; bounds
(-inf, 0] and rhs = lower - constant when only the lower bound is
present; bounds [lower - upper, 0] and rhs = lower - constant when both
bounds are present. -/
theorem claim10_slack_bounds (con : Con) (nv nr : Nat)
    (hnl : con.repn.nonlinear = false) (hlin : con.repn.linear ≠ [])
    (hne : con.lb ≠ con.ub) :
    (∀ u, con.lb = none → con.ub = some u →
      processCon .slack nv nr con =
        .ok ([⟨1, con.repn.linear ++ [(nv, 1)], u - con.repn.constant⟩],
             [⟨"_slack_" ++ toString nr, "Reals", some 0, none⟩], nv + 1))
  ∧ (∀ l, con.lb = some l → con.ub = none →
      processCon .slack nv nr con =
        .ok ([⟨1, con.repn.linear ++ [(nv, 1)], l - con.repn.constant⟩],
             [⟨"_slack_" ++ toString nr, "Reals", none, some 0⟩], nv + 1))
  ∧ (∀ l u, con.lb = some l → con.ub = some u →
      processCon .slack nv nr con =
        .ok ([⟨1, con.repn.linear ++ [(nv, 1)], l - con.repn.constant⟩],
             [⟨"_slack_" ++ toString nr, "Reals", some (l - u), some 0⟩], nv + 1)) := by
  rcases con with ⟨cname, clb, cub, ⟨k, lin, nl⟩⟩
  refine ⟨?_, ?_, ?_⟩
  · rintro u rfl rfl
    simp_all [processCon]
  · rintro l rfl rfl
    simp_all [processCon]
  · rintro l u rfl rfl
    simp only [Option.some.injEq] at hnl hlin ⊢
    have hlu : ¬ l = u := by intro h; exact hne (by rw [h])
    simp_all [processCon]

/-- Witness for C10 at 0 <= x <= 5 (both bounds): one slack row with
rhs = lower - constant = 0 and slack bounds [-5, 0]. -/
theorem claim10_slack_bounds_witness :
    processCon .slack 1 0 (⟨"w10", some 0, some 5, ⟨0, [(0, 1)], false⟩⟩ : Con) =
      .ok ([⟨1, [(0, 1), (1, 1)], 0⟩],
           [⟨"_slack_0", "Reals", some (-5), some 0⟩], 2) := by
  have h := (claim10_slack_bounds
    ⟨"w10", some 0, some 5, ⟨0, [(0, 1)], false⟩⟩ 1 0 rfl (by simp)
    (by simp)).2.2 0 5 rfl rfl
  norm_num at h
  simpa using h

/-- C3 counterexample: a constraint with both bounds absent whose form
has the nonlinear flag set is silently skipped (zero rows, no error),
because the code skips unbounded constraints before the nonlinear
check; the claim predicts a nonlinear-content failure naming the
constraint. -/
theorem claim3_validation_counterexample :
    processCon .std 0 0 (⟨"c", none, none, ⟨0, [(0, 1)], true⟩⟩ : Con) = .ok ([], [], 0)
    ∧ (Except.ok ([], [], 0) : Except CompileError (List Row × List PVar × Nat)) ≠
        Except.error (CompileError.nonlinearConstraint "c") := by
  constructor
  · simp [processCon]
  · simp

/-- C3 amended: a constraint with both bounds absent contributes zero
rows and is skipped before any validation; for a constraint with at
least one bound, the nonlinear flag aborts compilation with a
nonlinear-content error naming the constraint, before the constant-only
check and before any row is emitted, under every convention. -/
theorem claim3_validation_amended (conv : Conv) (nv nr : Nat) (con : Con) :
    (con.lb = none → con.ub = none → processCon conv nv nr con = .ok ([], [], nv))
  ∧ ((con.lb ≠ none ∨ con.ub ≠ none) → con.repn.nonlinear = true →
      processCon conv nv nr con = .error (.nonlinearConstraint con.name)) := by
  constructor
  · intro h1 h2
    simp [processCon, h1, h2]
  · intro hb hnl
    rcases hb with hb | hb <;> simp [processCon, hnl, hb]

/-- Witness for the amended C3: a no-bound nonlinear constraint is
skipped, and the same form with a lower bound raises the
nonlinear-content error naming the constraint. -/
theorem claim3_validation_witness :
    processCon .std 0 0 (⟨"skip", none, none, ⟨0, [(0, 1)], true⟩⟩ : Con) = .ok ([], [], 0)
  ∧ processCon .std 0 0 (⟨"nl", some 0, none, ⟨0, [(0, 1)], true⟩⟩ : Con) =
      .error (.nonlinearConstraint "nl") :=
  ⟨(claim3_validation_amended .std 0 0 ⟨"skip", none, none, ⟨0, [(0, 1)], true⟩⟩).1 rfl rfl,
   (claim3_validation_amended .std 0 0 ⟨"nl", some 0, none, ⟨0, [(0, 1)], true⟩⟩).2
     (Or.inl (by simp)) rfl⟩

/-- C4: a constant-only constraint (no variable terms) with at least
one bound is skipped when the constant satisfies the bounds and
otherwise aborts compilation with the infeasible-trivial-constraint
error naming the constraint, under every convention. -/
theorem claim4_trivial_constraint (conv : Conv) (nv nr : Nat) (con : Con)
    (hlin : con.repn.linear = []) (hnl : con.repn.nonlinear = false)
    (hb : con.lb ≠ none ∨ con.ub ≠ none) :
    processCon conv nv nr con =
      (if lbSat con.lb con.repn.constant && ubSat con.ub con.repn.constant then
        .ok ([], [], nv)
       else .error (.infeasibleConstraint con.name)) := by
  rcases hb with hb | hb <;> simp [processCon, hnl, hlin, hb]

/-- Witness for C4 at the spec scenario 0 <= -1 (a constant-only body
-1 with lower bound 0): compilation aborts with the
infeasible-trivial-constraint error naming the constraint. -/
theorem claim4_trivial_constraint_witness :
    processCon .std 0 0 (⟨"bad", some 0, none, ⟨-1, [], false⟩⟩ : Con) =
      .error (.infeasibleConstraint "bad") := by
  have h := claim4_trivial_constraint .std 0 0
    ⟨"bad", some 0, none, ⟨-1, [], false⟩⟩ rfl rfl (Or.inl (by simp))
  rw [h]
  norm_num [lbSat]

/-- C1 counterexample: for the two-sided constraint 0 <= x <= 5 under
the slack convention the code fixes the rhs to the lower bound minus
the constant (0, not the upper bound 5 as the claim states) and creates
the slack with bounds [-5, 0], which is not a non-negative range. -/
theorem claim1_slack_counterexample :
    processCon .slack 1 0 (⟨"c", some 0, some 5, ⟨0, [(0, 1)], false⟩⟩ : Con) =
      .ok ([⟨1, [(0, 1), (1, 1)], 0⟩],
           [⟨"_slack_0", "Reals", some (-5), some 0⟩], 2)
    ∧ (0 : ℚ) ≠ 5 - 0
    ∧ ¬ (0 : ℚ) ≤ (-5 : ℚ) := by
  refine ⟨?_, by norm_num, by norm_num⟩
  simp [processCon]
  rfl

/-- C1 amended: under the slack convention, a constraint with at least
one bound and at least one variable term emits exactly one row with
unflipped coefficients and multiplier +1.  When the bounds are equal
the rhs is the shared bound minus the constant and no slack is created.
Otherwise a slack variable is created and appended to the column
assignment, with the rhs fixed to the upper bound minus the constant
when only the upper bound is present (slack bounds [0, inf)), and to
the lower bound minus the constant whenever the lower bound is present
(slack bounds (-inf, 0], narrowed to [lower - upper, 0] when the upper
bound is also present); the slack is non-negative only in the
upper-bound-only case.  In each case the slack's bounds make the single
equality row reproduce the original inequality's feasible range. -/
theorem claim1_slack_amended (con : Con) (nv nr : Nat)
    (hnl : con.repn.nonlinear = false) (hlin : con.repn.linear ≠ []) :
    (∀ b', con.lb = some b' → con.ub = some b' →
      processCon .slack nv nr con =
        .ok ([⟨1, con.repn.linear, b' - con.repn.constant⟩], [], nv))
  ∧ (∀ u, con.lb = none → con.ub = some u →
      processCon .slack nv nr con =
        .ok ([⟨1, con.repn.linear ++ [(nv, 1)], u - con.repn.constant⟩],
             [⟨"_slack_" ++ toString nr, "Reals", some 0, none⟩], nv + 1)
      ∧ ∀ b : ℚ, (∃ s, b + s = u - con.repn.constant ∧ 0 ≤ s) ↔
          b + con.repn.constant ≤ u)
  ∧ (∀ l, con.lb = some l → con.ub = none →
      processCon .slack nv nr con =
        .ok ([⟨1, con.repn.linear ++ [(nv, 1)], l - con.repn.constant⟩],
             [⟨"_slack_" ++ toString nr, "Reals", none, some 0⟩], nv + 1)
      ∧ ∀ b : ℚ, (∃ s, b + s = l - con.repn.constant ∧ s ≤ 0) ↔
          l ≤ b + con.repn.constant)
  ∧ (∀ l u, con.lb = some l → con.ub = some u → l ≠ u →
      processCon .slack nv nr con =
        .ok ([⟨1, con.repn.linear ++ [(nv, 1)], l - con.repn.constant⟩],
             [⟨"_slack_" ++ toString nr, "Reals", some (l - u), some 0⟩], nv + 1)
      ∧ ∀ b : ℚ, (∃ s, b + s = l - con.repn.constant ∧ l - u ≤ s ∧ s ≤ 0) ↔
          (l ≤ b + con.repn.constant ∧ b + con.repn.constant ≤ u)) := by
  rcases con with ⟨cname, clb, cub, ⟨k, lin, nl⟩⟩
  refine ⟨?_, ?_, ?_, ?_⟩
  · rintro b' rfl rfl
    simp_all [processCon]
  · rintro u rfl rfl
    refine ⟨by simp_all [processCon], fun b => ?_⟩
    constructor
    · rintro ⟨s, hs, h0⟩
      linarith
    · intro h
      exact ⟨u - k - b, by ring, by linarith⟩
  · rintro l rfl rfl
    refine ⟨by simp_all [processCon], fun b => ?_⟩
    constructor
    · rintro ⟨s, hs, h0⟩
      linarith
    · intro h
      exact ⟨l - k - b, by ring, by linarith⟩
  · rintro l u rfl rfl hlu
    have hlu' : ¬ l = u := hlu
    refine ⟨by simp_all [processCon], fun b => ?_⟩
    constructor
    · rintro ⟨s, hs, h1, h2⟩
      constructor <;> linarith
    · rintro ⟨h1, h2⟩
      exact ⟨l - k - b, by ring, by linarith, by linarith⟩

/-- Witness for the amended C1 at the spec scenario x + y <= 5 under
slack form: one row with coefficients 1, 1, 1 (slack coefficient 1),
rhs 5, and the slack bounded [0, inf). -/
theorem claim1_slack_amended_witness :
    processCon .slack 2 0 (⟨"w1", none, some 5, ⟨0, [(0, 1), (1, 1)], false⟩⟩ : Con) =
      .ok ([⟨1, [(0, 1), (1, 1), (2, 1)], 5⟩],
           [⟨"_slack_0", "Reals", some 0, none⟩], 3) := by
  have h := ((claim1_slack_amended
    ⟨"w1", none, some 5, ⟨0, [(0, 1), (1, 1)], false⟩⟩ 2 0 rfl (by simp)).2.1
    5 rfl rfl).1
  norm_num at h
  simpa using h

/-- C8: every linear objective contributes exactly one coefficient row
and one constant offset; when a uniform sense is configured (set_sense
is not None) and the objective's sense disagrees, both the row and the
offset are negated, and otherwise both are emitted unchanged. -/
theorem claim8_objective_rows (ss : Option Int) (objs : List Obj)
    (h : ∀ o ∈ objs, o.repn.nonlinear = false) :
    processObjs ss objs = .ok (objs.map (objRow ss))
  ∧ (objs.map (objRow ss)).length = objs.length
  ∧ ∀ o ∈ objs,
      (∀ s, ss = some s → s ≠ o.sense →
        objRow ss o = (negCol o.repn.linear, -o.repn.constant))
    ∧ (∀ s, ss = some s → s = o.sense →
        objRow ss o = (o.repn.linear, o.repn.constant))
    ∧ (ss = none → objRow ss o = (o.repn.linear, o.repn.constant)) := by
  refine ⟨?_, by simp, ?_⟩
  · induction objs with
    | nil => rfl
    | cons o rest ih =>
      have ho := h o (by simp)
      have hr : ∀ x ∈ rest, x.repn.nonlinear = false := fun x hx => h x (by simp [hx])
      simp [processObjs, processObj, ho, ih hr]
  · intro o _
    refine ⟨?_, ?_, ?_⟩
    · rintro s rfl hs
      simp [objRow, hs]
    · rintro s rfl rfl
      simp [objRow]
    · rintro rfl
      simp [objRow]

/-- Witness for C8: a maximize objective (sense -1) under a configured
minimize sense (1) has its coefficient row and offset negated. -/
theorem claim8_objective_rows_witness :
    processObjs (some 1) [(⟨"o", -1, ⟨3, [(0, 2)], false⟩⟩ : Obj)] =
      .ok [([(0, -2)], -3)] := by
  have h := (claim8_objective_rows (some 1)
    [⟨"o", -1, ⟨3, [(0, 2)], false⟩⟩] (by simp)).1
  simpa [objRow, negCol] using h

/-- C9 counterexample: with both slack_form and mixed_form set, a model
whose objective is nonlinear aborts with the nonlinear-content error,
not the conflicting-configuration error, because the objective loop
(which builds the objective rows) runs before the configuration check;
so compilation does not abort with ConflictingConfiguration before any
row is built. -/
theorem claim9_conflict_counterexample :
    write ⟨false, true, true, some 1⟩
        ⟨[⟨"o", 1, ⟨0, [(0, 1)], true⟩⟩], [], 0⟩ =
      .error (.nonlinearObjective "o")
    ∧ CompileError.nonlinearObjective "o" ≠ CompileError.conflictingConfig := by
  constructor
  · simp [write, processObjs, processObj]
  · simp

/-- C9 amended: when both the slack-row and mixed-sign-row conventions
are requested and every objective is linear (so the objective loop,
which runs first, succeeds), compilation aborts with the
conflicting-configuration error before any constraint row is built --
uniformly in the constraint list -- and no compiled representation is
returned. -/
theorem claim9_conflict_amended (cfg : Config) (objs : List Obj) (nv : Nat)
    (h1 : cfg.slack_form = true) (h2 : cfg.mixed_form = true)
    (hobj : ∀ o ∈ objs, o.repn.nonlinear = false) :
    ∀ cs : List Con, write cfg ⟨objs, cs, nv⟩ = .error .conflictingConfig := by
  intro cs
  have hmap : processObjs cfg.set_sense objs = .ok (objs.map (objRow cfg.set_sense)) := by
    induction objs with
    | nil => rfl
    | cons o rest ih =>
      have ho := hobj o (by simp)
      have hr : ∀ x ∈ rest, x.repn.nonlinear = false := fun x hx => hobj x (by simp [hx])
      simp_all [processObjs, processObj]
  simp [write, hmap, h1, h2]

/-- Witness for the amended C9: a linear objective plus a constraint,
both conventions requested, yields exactly the
conflicting-configuration error. -/
theorem claim9_conflict_amended_witness :
    write ⟨false, true, true, none⟩
        ⟨[⟨"o", 1, ⟨0, [(0, 1)], false⟩⟩],
         [⟨"c", some 0, none, ⟨0, [(0, 1)], false⟩⟩], 1⟩ =
      .error .conflictingConfig :=
  claim9_conflict_amended ⟨false, true, true, none⟩
    [⟨"o", 1, ⟨0, [(0, 1)], false⟩⟩] 1 rfl rfl (by simp)
    [⟨"c", some 0, none, ⟨0, [(0, 1)], false⟩⟩]

/-- C5: a column whose lower bound is absent or negative (splitLb) and
whose upper bound is absent or strictly positive (splitUb) is replaced
by exactly two columns: the negative part named _neg_i bounded
[0, -lower] (upper bound absent when the lower bound is absent) with
both matrices' coefficients negated, then the positive part named
_pos_i bounded [0, upper] (unbounded above when upper is absent) with
the original coefficients, and the substitution
original = positive_part - negative_part is recorded; a column whose
lower bound is present and non-negative passes through as the identical
variable with identical coefficients and no substitution. -/
theorem claim5_nonneg_split (i : Nat) (cCol aCol : Col) (v : PVar) :
    (splitLb v.lb = true → splitUb v.ub = true →
      nnStep i cCol aCol v =
        ([(negCol cCol, negCol aCol,
           ⟨"_neg_" ++ toString i, v.domain, some 0, Option.map (fun l => -l) v.lb⟩),
          (cCol, aCol, ⟨"_pos_" ++ toString i, v.domain, some 0, v.ub⟩)],
         [(v, VExpr.sub ⟨"_pos_" ++ toString i, v.domain, some 0, v.ub⟩
             ⟨"_neg_" ++ toString i, v.domain, some 0, Option.map (fun l => -l) v.lb⟩)]))
  ∧ (∀ l, v.lb = some l → 0 ≤ l →
      nnStep i cCol aCol v = ([(cCol, aCol, v)], [])) := by
  constructor
  · intro h1 h2
    simp [nnStep, h1, h2]
  · rintro l hl h0
    have hs : splitLb v.lb = false := by
      simp [splitLb, hl, not_lt.mpr h0]
    simp [nnStep, hs]

/-- Witness for C5 at the spec scenario: a free variable (both bounds
absent) splits into _neg_0 and _pos_0, each bounded [0, inf), with
substitution x = pos - neg. -/
theorem claim5_nonneg_split_witness :
    nnStep 0 [(0, 2)] [(1, 3)] (⟨"x", "Reals", none, none⟩ : PVar) =
      ([([(0, -2)], [(1, -3)], ⟨"_neg_0", "Reals", some 0, none⟩),
        ([(0, 2)], [(1, 3)], ⟨"_pos_0", "Reals", some 0, none⟩)],
       [(⟨"x", "Reals", none, none⟩,
         VExpr.sub ⟨"_pos_0", "Reals", some 0, none⟩
           ⟨"_neg_0", "Reals", some 0, none⟩)]) := by
  have h := (claim5_nonneg_split 0 [(0, 2)] [(1, 3)] ⟨"x", "Reals", none, none⟩).1 rfl rfl
  simpa [negCol] using h

/-- The mask selection of the pruning pass, stated on the triple-zip of
the two matrices' columns and the column list: it equals a filter by
the per-column activity test. -/
theorem maskList_zip3_filter (cs as : List Col) (vs : List PVar)
    (h1 : cs.length = vs.length) (h2 : as.length = vs.length) :
    zip3 (maskList (activeVarMask as cs) cs)
         (maskList (activeVarMask as cs) as)
         (maskList (activeVarMask as cs) vs)
      = (zip3 cs as vs).filter (fun t => colActive t.2.1 t.1) := by
  induction vs generalizing cs as with
  | nil =>
    rw [List.length_nil, List.length_eq_zero] at h1 h2
    subst h1
    subst h2
    rfl
  | cons v vs' ih =>
    cases cs with
    | nil => simp at h1
    | cons c cs' =>
      cases as with
      | nil => simp at h2
      | cons a as' =>
        simp only [List.length_cons, Nat.succ.injEq] at h1 h2
        have hmask : activeVarMask (a :: as') (c :: cs')
            = colActive a c :: activeVarMask as' cs' := rfl
        have ih' := ih cs' as' h1 h2
        simp only [zip3] at ih'
        by_cases hac : colActive a c = true
        · rw [hmask, hac]
          simp only [maskList, zip3, List.zip_cons_cons, List.filter_cons]
          rw [ih']
          simp [hac]
        · rw [Bool.not_eq_true] at hac
          rw [hmask, hac]
          simp only [maskList, zip3, List.zip_cons_cons, List.filter_cons]
          rw [ih']
          simp [hac]

/-- C6: the pruning pass keeps exactly the columns with a stored entry
in the objective matrix or the constraint matrix: the pruned triples
are the filter of the original triples by that test, every retained
column has a stored entry in one of the two matrices, every column
empty in both matrices is removed, and the retained columns keep their
entries (values and row indices) and their order, being a sublist of
the original triples. -/
theorem claim6_prune (cCols aCols : List Col) (columns : List PVar)
    (h1 : cCols.length = columns.length) (h2 : aCols.length = columns.length) :
    zip3 (pruneCols cCols aCols columns).1 (pruneCols cCols aCols columns).2.1
         (pruneCols cCols aCols columns).2.2
      = (zip3 cCols aCols columns).filter (fun t => colActive t.2.1 t.1)
  ∧ (∀ t ∈ zip3 (pruneCols cCols aCols columns).1 (pruneCols cCols aCols columns).2.1
        (pruneCols cCols aCols columns).2.2, t.2.1 ≠ [] ∨ t.1 ≠ [])
  ∧ (∀ t ∈ zip3 cCols aCols columns, t.1 = [] ∧ t.2.1 = [] →
      t ∉ zip3 (pruneCols cCols aCols columns).1 (pruneCols cCols aCols columns).2.1
        (pruneCols cCols aCols columns).2.2)
  ∧ (zip3 (pruneCols cCols aCols columns).1 (pruneCols cCols aCols columns).2.1
        (pruneCols cCols aCols columns).2.2).Sublist (zip3 cCols aCols columns) := by
  have key := maskList_zip3_filter cCols aCols columns h1 h2
  have hp : pruneCols cCols aCols columns
      = (maskList (activeVarMask aCols cCols) cCols,
         maskList (activeVarMask aCols cCols) aCols,
         maskList (activeVarMask aCols cCols) columns) := rfl
  refine ⟨by rw [hp]; exact key, ?_, ?_, ?_⟩
  · intro t ht
    rw [hp] at ht
    simp only at ht
    rw [key] at ht
    have hpred := List.of_mem_filter ht
    simp only [colActive, Bool.or_eq_true, Bool.not_eq_true', List.isEmpty_eq_false]
      at hpred
    tauto
  · intro t _ he hmem
    rw [hp] at hmem
    simp only at hmem
    rw [key] at hmem
    have hpred := List.of_mem_filter hmem
    simp [colActive, he.1, he.2] at hpred
  · rw [hp]
    simp only
    rw [key]
    exact List.filter_sublist _

/-- Witness for C6: with one column empty in both matrices and one
column present in the objective, the pruned triples are a sublist of
the originals. -/
theorem claim6_prune_witness :
    (zip3 (pruneCols [[], [(0, 1)]] [[], []]
        [⟨"a", "R", none, none⟩, ⟨"b", "R", none, none⟩]).1
      (pruneCols [[], [(0, 1)]] [[], []]
        [⟨"a", "R", none, none⟩, ⟨"b", "R", none, none⟩]).2.1
      (pruneCols [[], [(0, 1)]] [[], []]
        [⟨"a", "R", none, none⟩, ⟨"b", "R", none, none⟩]).2.2).Sublist
      (zip3 [[], [(0, 1)]] [[], []]
        [⟨"a", "R", none, none⟩, ⟨"b", "R", none, none⟩]) :=
  (claim6_prune [[], [(0, 1)]] [[], []]
    [⟨"a", "R", none, none⟩, ⟨"b", "R", none, none⟩] rfl rfl).2.2.2

end StandardForm
